import Mathlib

/-!
Verification development for a PDF colour-catalogue analysis tool.

The TypeScript sources are shallowly embedded: JavaScript numbers holding
8-bit channel values, pixel coordinates and counters are modelled as `ℕ`,
signed pixel differences as `ℤ`, and the floating-point arithmetic of the
colour matcher (square roots, divisions, `Math.round`) as real arithmetic
over `ℝ`.  Images and pixel buffers are modelled as total functions from
coordinates to RGB triples; the `sharp` buffer indexing
`(y * width + x) * channels` is abstracted into that function.  I/O,
logging and debug-image emission are omitted: only the data transformations
are embedded.  Strings are handled at the character-list level where the
JavaScript code manipulates them (`trim`, `split`, regular expressions),
because the embeddings must evaluate inside the kernel.
-/

/-- An RGB triple as carried around by the TypeScript code (`{r, g, b}`).
Channel values come from 8-bit image buffers. -/
structure Rgb where
  r : ℕ
  g : ℕ
  b : ℕ
deriving DecidableEq, Repr

/-- `BoundingBox` from `types.ts`: integer page-pixel coordinates. -/
structure BoundingBox where
  x : ℕ
  y : ℕ
  width : ℕ
  height : ℕ
deriving DecidableEq, Repr

/-- `ReferenceColor` from `types.ts`. -/
structure ReferenceColor where
  colorCode : String
  colorName : String
  pantoneColor : String
  rgb : Rgb
  hex : String
  boundingBox : BoundingBox
deriving DecidableEq, Repr

/-- `ColorBox` from `types.ts` (a sampled swatch colour). -/
structure ColorBox where
  rgb : Rgb
  hex : String
  boundingBox : BoundingBox
  bottomRightPixel : Rgb
deriving DecidableEq, Repr

/-- `SwatchGroup` from `types.ts`. -/
structure SwatchGroup where
  styleNumber : String
  styleName : String
  colors : List ColorBox
  boundingBox : BoundingBox
deriving DecidableEq, Repr

namespace SwatchExtractor

/-- `SwatchExtractor.isWhiteOrNearWhite` (swatch-extractor source):
`color.r > threshold && color.g > threshold && color.b > threshold`
with `threshold = 240`. -/
def isWhiteOrNearWhite (c : Rgb) : Bool :=
  240 < c.r && 240 < c.g && 240 < c.b

/-- `SwatchExtractor.findRowStart`: scan a fixed column downward from
`startY` while `y < height - 10`; at the first non-white pixel return
`Math.max(0, y - 45)` (the 45-pixel text margin; `Nat` subtraction models
the clamp at 0).  The scanned column `col` maps a row index to the pixel
at the fixed scan X position. -/
def findRowStart (col : ℕ → Rgb) (height startY : ℕ) : Option ℕ :=
  ((List.range' startY (height - 10 - startY)).find?
    (fun y => ! isWhiteOrNearWhite (col y))).map (fun y => y - 45)

/-- Loop body of `SwatchExtractor.findRowEnd`: walk the remaining row
indices keeping the count of consecutive white pixels; when the count
reaches `thr` at row `y`, return `Math.max(y - thr, rowStart + 1)`. -/
def findRowEndAux (col : ℕ → Rgb) (rowStart thr : ℕ) : List ℕ → ℕ → Option ℕ
  | [], _ => none
  | y :: ys, cnt =>
    if isWhiteOrNearWhite (col y) then
      if thr ≤ cnt + 1 then some (max (y - thr) (rowStart + 1))
      else findRowEndAux col rowStart thr ys (cnt + 1)
    else findRowEndAux col rowStart thr ys 0

/-- `SwatchExtractor.findRowEnd`: scan from `rowStart` while
`y < height - 10`, ending the row once `whiteSpaceThreshold` consecutive
white pixels are seen. -/
def findRowEnd (col : ℕ → Rgb) (height rowStart thr : ℕ) : Option ℕ :=
  findRowEndAux col rowStart thr (List.range' rowStart (height - 10 - rowStart)) 0

/-- JavaScript `text.split('\n')` at the character level: split on every
newline, keeping empty segments. -/
def splitOnNewline : List Char → List (List Char)
  | [] => [[]]
  | c :: cs =>
    let r := splitOnNewline cs
    if c = '\n' then [] :: r
    else
      match r with
      | [] => [[c]]
      | h :: t => (c :: h) :: t

/-- JavaScript `String.prototype.trim()` at the character level (the
embedding uses Lean's `Char.isWhitespace`, which covers the ASCII
whitespace the OCR text contains). -/
def trimChars (l : List Char) : List Char :=
  ((l.dropWhile Char.isWhitespace).reverse.dropWhile Char.isWhitespace).reverse

/-- The line preprocessing of `parseSwatchText`:
`text.split('\n').map(line => line.trim()).filter(line => line.length > 0)`. -/
def swatchLines (text : List Char) : List (List Char) :=
  ((splitOnNewline text).map trimChars).filter (fun l => 0 < l.length)

/-- JavaScript `replace(/[|]/g, '')`: drop every pipe character. -/
def stripPipes (l : List Char) : List Char := l.filter (fun c => c ≠ '|')

/-- JavaScript `replace(/\s+/g, ' ')`: collapse each whitespace run to a
single space.  The boolean argument records whether the previous character
was part of a whitespace run. -/
def collapseWs : Bool → List Char → List Char
  | _, [] => []
  | prevWs, c :: cs =>
    if c.isWhitespace then
      if prevWs then collapseWs true cs else ' ' :: collapseWs true cs
    else c :: collapseWs false cs

/-- The style-name cleanup of `parseSwatchText`:
`styleName.replace(/[|]/g, '').replace(/\s+/g, ' ').trim()`. -/
def cleanStyleName (l : List Char) : List Char :=
  trimChars (collapseWs false (stripPipes l))

/-- Result record of `parseSwatchText`. -/
structure TextInfo where
  styleNumber : String
  styleName : String
deriving DecidableEq, Repr

/-- `SwatchExtractor.parseSwatchText`: style number is the first 6
characters of the first non-empty trimmed line when that line has at least
6 characters; style name is the cleaned second non-empty line when there
is one, otherwise the trimmed remainder of the first line beyond position
6 when that remainder is longer than 2 characters; empty fields fall back
to `"Unknown"`; with no non-empty lines the parse fails (`none`). -/
def parseSwatchText (text : String) : Option TextInfo :=
  let lines := swatchLines text.data
  match lines with
  | [] => none
  | l0 :: rest =>
    let styleNumber : List Char := if 6 ≤ l0.length then l0.take 6 else []
    let name1 : List Char :=
      match rest with
      | l1 :: _ => cleanStyleName l1
      | [] => []
    let styleName : List Char :=
      if name1 = [] then
        let remaining := trimChars (l0.drop 6)
        if 2 < remaining.length then remaining else []
      else name1
    some { styleNumber := if styleNumber = [] then "Unknown" else ⟨styleNumber⟩
           styleName := if styleName = [] then "Unknown" else ⟨styleName⟩ }

/-- Lowercase hexadecimal digit, as produced by JavaScript
`toString(16)`. -/
def hexChar (n : ℕ) : Char :=
  if n = 0 then '0' else if n = 1 then '1' else if n = 2 then '2'
  else if n = 3 then '3' else if n = 4 then '4' else if n = 5 then '5'
  else if n = 6 then '6' else if n = 7 then '7' else if n = 8 then '8'
  else if n = 9 then '9' else if n = 10 then 'a' else if n = 11 then 'b'
  else if n = 12 then 'c' else if n = 13 then 'd' else if n = 14 then 'e'
  else 'f'

/-- JavaScript `v.toString(16).padStart(2, '0')` for a channel value
`v ≤ 255`: exactly two lowercase hexadecimal digits. -/
def hexByte (n : ℕ) : String := ⟨[hexChar (n / 16), hexChar (n % 16)]⟩

/-- JavaScript `Math.round(a / b)` for natural `a` and positive natural
`b`: `⌊a/b + 1/2⌋ = (2a + b) / (2b)` in natural division. -/
def jsRoundDiv (a b : ℕ) : ℕ := (2 * a + b) / (2 * b)

/-- The pixels sampled by `extractDominantColor`: `y` from
`verticalBounds.startY` to `verticalBounds.endY` inclusive, `x` from
`colorBoxBounds.startX` up to (excluding) `colorBoxBounds.endX`. -/
def samplePixels (img : ℕ → ℕ → Rgb) (bounds vbounds : ℕ × ℕ) : List Rgb :=
  ((List.range' vbounds.1 (vbounds.2 + 1 - vbounds.1)).map (fun y =>
    (List.range' bounds.1 (bounds.2 - bounds.1)).map (fun x => img y x))).flatten

/-- `SwatchExtractor.extractDominantColor`: average the non-white pixels of
the detected colour-box area (`none` when every sampled pixel is white),
encode the average as `#` plus six lowercase hexadecimal digits, and attach
the bounding box and the raw bottom-right pixel.  The raw buffer access
`(y * width + x) * channels` is abstracted into the pixel function
`img`. -/
def extractDominantColor (img : ℕ → ℕ → Rgb) (width height : ℕ)
    (bounds vbounds : ℕ × ℕ) : Option ColorBox :=
  let nonWhite := (samplePixels img bounds vbounds).filter
    (fun c => ! isWhiteOrNearWhite c)
  let pixelCount := nonWhite.length
  if pixelCount = 0 then none
  else
    let avgR := jsRoundDiv ((nonWhite.map Rgb.r).sum) pixelCount
    let avgG := jsRoundDiv ((nonWhite.map Rgb.g).sum) pixelCount
    let avgB := jsRoundDiv ((nonWhite.map Rgb.b).sum) pixelCount
    let brX := min (bounds.2 - 1) (width - 1)
    let brY := min vbounds.2 (height - 1)
    some { rgb := ⟨avgR, avgG, avgB⟩
           hex := "#" ++ hexByte avgR ++ hexByte avgG ++ hexByte avgB
           boundingBox := ⟨bounds.1, vbounds.1, bounds.2 - bounds.1,
                           vbounds.2 - vbounds.1 + 1⟩
           bottomRightPixel := img brY brX }

end SwatchExtractor

/-- Anchor box found by `findRedAnchorBoxes` (`{x, y, width, height}`). -/
structure RedBox where
  x : ℕ
  y : ℕ
  width : ℕ
  height : ℕ
deriving DecidableEq, Repr

namespace ReferenceColorExtractor

/-- `ReferenceColorExtractor.isBrightRedPixel`:
`color.r > 180 && color.g < 100 && color.b < 100`. -/
def isBrightRedPixel (c : Rgb) : Bool :=
  180 < c.r && c.g < 100 && c.b < 100

/-- `ReferenceColorExtractor.isWhiteOrNearWhite`: the reference-extractor
variant computes the mean brightness `(r + g + b) / 3` and compares it
with 240 (unlike the swatch-extractor variant, which tests each channel
separately).  The exact rational mean models the floating-point
division. -/
def isWhiteOrNearWhite (c : Rgb) : Bool :=
  decide ((240 : ℚ) < ((c.r : ℚ) + (c.g : ℚ) + (c.b : ℚ)) / 3)

/-- `Math.floor(width * 0.1)`: the left-margin width scanned for anchor
boxes. -/
def leftMarginWidth (width : ℕ) : ℕ := width / 10

/-- One row of `redPixelMatrix`: the bright-red flags of the left-margin
pixels of image row `y`. -/
def redFlags (img : ℕ → ℕ → Rgb) (width y : ℕ) : List Bool :=
  (List.range (leftMarginWidth width)).map (fun x => isBrightRedPixel (img y x))

/-- `redPixelMatrix[y].filter(Boolean).length`. -/
def redCount (row : List Bool) : ℕ := row.count true

/-- `redPixelPercentage > 0.1`, i.e. `redCount / m > 1/10`, as the integer
comparison `m < 10 * redCount`. -/
def qualRow (m : ℕ) (row : List Bool) : Bool := decide (m < 10 * redCount row)

/-- `redPixelMatrix[y].indexOf(true)` (the guard in the source ensures a
red pixel exists whenever this value is used). -/
def leftIdx (row : List Bool) : ℕ := row.findIdx id

/-- `redPixelMatrix[y].lastIndexOf(true)` for a row that contains a red
pixel. -/
def rightIdx (row : List Bool) : ℕ := row.length - 1 - row.reverse.findIdx id

/-- `rowWidth = rightmostRed - leftmostRed + 1`. -/
def spanW (row : List Bool) : ℕ := rightIdx row - leftIdx row + 1

/-- Closing a candidate box: it is kept iff it spans at least 8 rows
(`currentBox.height >= 8`). -/
def flushBox : Option RedBox → List RedBox
  | none => []
  | some b => if 8 ≤ b.height then [b] else []

/-- The row-grouping loop of `findRedAnchorBoxes`: a row whose red
fraction exceeds 10% and whose red span is at least 5 pixels wide starts a
new box (`x`/`y` from this first row) or extends the current one
(`width := max width rowWidth`, `height + 1`); any other row closes the
current box, keeping it when it is at least 8 rows tall. -/
def groupRedRowsAux (m : ℕ) :
    List (List Bool) → ℕ → Option RedBox → List RedBox → List RedBox
  | [], _, cur, acc => acc ++ flushBox cur
  | row :: rest, y, cur, acc =>
    if qualRow m row then
      if 5 ≤ spanW row then
        match cur with
        | none =>
          groupRedRowsAux m rest (y + 1) (some ⟨leftIdx row, y, spanW row, 1⟩) acc
        | some b =>
          groupRedRowsAux m rest (y + 1)
            (some ⟨b.x, b.y, max b.width (spanW row), b.height + 1⟩) acc
      else groupRedRowsAux m rest (y + 1) none (acc ++ flushBox cur)
    else groupRedRowsAux m rest (y + 1) none (acc ++ flushBox cur)

/-- `ReferenceColorExtractor.findRedAnchorBoxes`: build the red-pixel
matrix over the left margin and group qualifying rows into anchor
boxes. -/
def findRedAnchorBoxes (img : ℕ → ℕ → Rgb) (width height : ℕ) : List RedBox :=
  groupRedRowsAux (leftMarginWidth width)
    ((List.range height).map (redFlags img width)) 0 none []

/-- `ReferenceColorExtractor.generateFallbackColorCode`:
`C${Math.floor(x / 200) + 1}${((r + g + b) % 1000).toString().padStart(3, '0')}`. -/
def generateFallbackColorCode (x : ℕ) (c : Rgb) : String :=
  let colorHash := (c.r + c.g + c.b) % 1000
  let digits := toString colorHash
  let padded := ⟨List.replicate (3 - digits.length) '0' ++ digits.data⟩
  "C" ++ toString (x / 200 + 1) ++ padded

/-- Modelled from the spec: `PDFProcessor.rgbToHex` lives in
`pdf-processor.ts`, which is not among the provided sources; the spec's
data model states that reference-entry `hex` is the canonical uppercase
6-digit encoding of `rgb`.  This field plays no role in any claim's
deciding logic. -/
def rgbToHex (c : Rgb) : String :=
  let up : ℕ → Char := fun n =>
    if n = 10 then 'A' else if n = 11 then 'B' else if n = 12 then 'C'
    else if n = 13 then 'D' else if n = 14 then 'E' else if n = 15 then 'F'
    else SwatchExtractor.hexChar n
  "#" ++ ⟨[up (c.r / 16), up (c.r % 16), up (c.g / 16), up (c.g % 16),
           up (c.b / 16), up (c.b % 16)]⟩

/-- The final synthetic-fallback branch of `extractColorInfoEnhanced`:
a deterministic code from the region position and colour, the generic name
`Color at <x>`, and an `Unknown` Pantone label. -/
def fallbackReferenceColor (boundingBox : BoundingBox) (regionColor : Rgb) :
    ReferenceColor :=
  { colorCode := generateFallbackColorCode boundingBox.x regionColor
    colorName := "Color at " ++ toString boundingBox.x
    pantoneColor := "Unknown"
    rgb := regionColor
    hex := rgbToHex regionColor
    boundingBox := boundingBox }

end ReferenceColorExtractor

/-- Test that `pat` is an initial segment of `l` (character lists). -/
def isPrefOf : List Char → List Char → Bool
  | [], _ => true
  | _ :: _, [] => false
  | a :: as, b :: bs => a = b && isPrefOf as bs

/-- Test that `pat` occurs contiguously inside `l`. -/
def hasSubstr (pat : List Char) : List Char → Bool
  | [] => isPrefOf pat []
  | c :: rest => isPrefOf pat (c :: rest) || hasSubstr pat rest

/-- JavaScript `s.includes(pat)`. -/
def strIncludes (s pat : String) : Bool := hasSubstr pat.data s.data

namespace ColorValidator

/-- One row of the ground-truth table `expectedColors`. -/
structure ExpectedColor where
  code : String
  name : String
  position : ℕ
deriving DecidableEq, Repr

/-- The fixed 11-entry ground-truth palette from `validate-and-correct`. -/
def expectedColors : List ExpectedColor :=
  [⟨"B60002", "New Black", 15⟩,
   ⟨"B10093", "Deep Depths", 75⟩,
   ⟨"B50027", "Lemonade", 137⟩,
   ⟨"B30192", "Chocolate", 198⟩,
   ⟨"B30194", "Falcon Brown", 260⟩,
   ⟨"B30193", "Clay", 322⟩,
   ⟨"B30195", "Rose Gray", 384⟩,
   ⟨"B10119", "Gardenia", 447⟩,
   ⟨"B20162", "Coastline Blue", 508⟩,
   ⟨"B20033", "Dazzling Blue", 570⟩,
   ⟨"B20111", "Navy", 633⟩]

/-- The regular expression `^C\d{4}$`: a literal `C` followed by exactly
four decimal digits. -/
def isFallbackCode (s : String) : Bool :=
  match s.data with
  | 'C' :: rest => rest.length = 4 && rest.all Char.isDigit
  | _ => false

/-- The generic-name test of `isOCRFailure`: the name contains
`"Color at "`, equals `"Unknown"`, or is shorter than 3 characters. -/
def hasGenericName (name : String) : Bool :=
  strIncludes name "Color at " || name == "Unknown" || name.length < 3

/-- `ColorValidator.isOCRFailure`: fallback code pattern or generic
name. -/
def isOCRFailure (c : ReferenceColor) : Bool :=
  isFallbackCode c.colorCode || hasGenericName c.colorName

/-- `ColorValidator.findExpectedColorByPosition`: first ground-truth entry
whose position is within 200 pixels of the given x position. -/
def findExpectedColorByPosition (position : ℕ) : Option ExpectedColor :=
  expectedColors.find? (fun e => ((position : ℤ) - e.position).natAbs ≤ 200)

/-- The corrected entry built by `validateAndCorrect`: spread of the
extracted colour with only `colorCode` and `colorName` replaced. -/
def correctedEntry (c : ReferenceColor) (e : ExpectedColor) : ReferenceColor :=
  { c with colorCode := e.code, colorName := e.name }

/-- A `Correction` record (index, corrected colour, human-readable
reason). -/
structure Correction where
  originalIndex : ℕ
  correctedColor : ReferenceColor
  reason : String
deriving DecidableEq, Repr

/-- The reason string recorded with each correction. -/
def correctionReason (c : ReferenceColor) (e : ExpectedColor) : String :=
  "OCR failed, applied correction based on position. Expected " ++
    e.code ++ ", got " ++ c.colorCode ++ "."

/-- Result of `validateAndCorrect` (the printable `summary` string is
log-only and omitted). -/
structure ValidationResult where
  isValid : Bool
  corrections : List Correction
deriving DecidableEq, Repr

/-- `ColorValidator.validateAndCorrect`: for each entry, in order, flag it
when `isOCRFailure` holds and a ground-truth entry lies within positional
tolerance of its bounding-box x; flagged entries yield a `Correction`
replacing only code and name; unflagged entries are left alone. -/
def validateAndCorrect (extractedColors : List ReferenceColor) : ValidationResult :=
  let corrections := extractedColors.enum.filterMap (fun p =>
    if isOCRFailure p.2 then
      (findExpectedColorByPosition p.2.boundingBox.x).map (fun e =>
        ⟨p.1, correctedEntry p.2 e, correctionReason p.2 e⟩)
    else none)
  { isValid := corrections.isEmpty, corrections := corrections }

/-- `ColorValidator.applyCorrections`: copy the list and overwrite each
corrected index with its corrected colour (corrections produced by
`validateAndCorrect` always carry in-range indices). -/
def applyCorrections (extractedColors : List ReferenceColor)
    (corrections : List Correction) : List ReferenceColor :=
  corrections.foldl (fun acc cor => acc.set cor.originalIndex cor.correctedColor)
    extractedColors

end ColorValidator

namespace ColorMatcher

/-- Emitted match metadata (`matchedReference` in `MatchedColor`). -/
structure MatchedReference where
  colorCode : String
  colorName : String
  pantoneColor : String
  distance : ℝ
  confidence : ℝ

/-- `MatchedColor` from `color-matcher.ts`. -/
structure MatchedColor where
  rgb : Rgb
  hex : String
  boundingBox : BoundingBox
  bottomRightPixel : Rgb
  matchedReference : MatchedReference

/-- `MatchedSwatch` from `color-matcher.ts`. -/
structure MatchedSwatch where
  styleNumber : String
  styleName : String
  colors : List MatchedColor
  boundingBox : BoundingBox

/-- `ColorMatcher.calculateColorDistance`: Euclidean RGB distance, with
the floating-point arithmetic modelled over `ℝ`. -/
noncomputable def calculateColorDistance (c1 c2 : Rgb) : ℝ :=
  let dr : ℝ := (c1.r : ℝ) - (c2.r : ℝ)
  let dg : ℝ := (c1.g : ℝ) - (c2.g : ℝ)
  let db : ℝ := (c1.b : ℝ) - (c2.b : ℝ)
  Real.sqrt (dr * dr + dg * dg + db * db)

/-- JavaScript `Math.round(x * 100) / 100` (round to two decimal places;
`Math.round` is `⌊x + 1/2⌋`). -/
noncomputable def jsRound2 (x : ℝ) : ℝ := (⌊x * 100 + 1 / 2⌋ : ℤ) / 100

/-- The minimum-scanning loop of `findClosestReferenceColor`: walk the
palette keeping the reference with the strictly smallest distance seen so
far (the JavaScript initialisation `minDistance = Infinity` makes the
first palette entry always replace an empty accumulator). -/
noncomputable def findClosestAux (swatch : Rgb) :
    List ReferenceColor → Option (ReferenceColor × ℝ) → Option (ReferenceColor × ℝ)
  | [], best => best
  | r :: rest, best =>
    let d := calculateColorDistance swatch r.rgb
    match best with
    | none => findClosestAux swatch rest (some (r, d))
    | some (br, bd) =>
      if d < bd then findClosestAux swatch rest (some (r, d))
      else findClosestAux swatch rest (some (br, bd))

/-- `ColorMatcher.findClosestReferenceColor`: `none` for an empty palette
or when the minimum distance exceeds `maxDistance`; otherwise the closest
reference, the raw minimum distance, and the two-decimal rounding of
`max(0, min(100, 100 - (minDistance / maxDistance) * 100))`. -/
noncomputable def findClosestReferenceColor (refs : List ReferenceColor)
    (maxDistance : ℝ) (swatch : Rgb) : Option (ReferenceColor × ℝ × ℝ) :=
  match findClosestAux swatch refs none with
  | none => none
  | some (r, d) =>
    if d ≤ maxDistance then
      some (r, d, jsRound2 (max 0 (min 100 (100 - d / maxDistance * 100))))
    else none

/-- The sentinel `matchedReference` emitted when no reference color is
within the acceptable distance. -/
def unmatchedReference : MatchedReference :=
  { colorCode := "UNKNOWN"
    colorName := "No Match Found"
    pantoneColor := "N/A"
    distance := -1
    confidence := 0 }

/-- The per-colour body of the `matchSwatchesWithReferences` loop: emit a
matched record (with the distance rounded to two decimals) or the sentinel
record; either way the sampled colour's own fields are carried over. -/
noncomputable def matchColor (refs : List ReferenceColor) (maxDistance : ℝ)
    (color : ColorBox) : MatchedColor :=
  match findClosestReferenceColor refs maxDistance color.rgb with
  | some (r, d, conf) =>
    { rgb := color.rgb
      hex := color.hex
      boundingBox := color.boundingBox
      bottomRightPixel := color.bottomRightPixel
      matchedReference :=
        { colorCode := r.colorCode
          colorName := r.colorName
          pantoneColor := r.pantoneColor
          distance := jsRound2 d
          confidence := conf } }
  | none =>
    { rgb := color.rgb
      hex := color.hex
      boundingBox := color.boundingBox
      bottomRightPixel := color.bottomRightPixel
      matchedReference := unmatchedReference }

/-- `ColorMatcher.matchSwatchesWithReferences`, restricted to the data it
computes (the surrounding timestamp/statistics fields are logging
metadata): every swatch is emitted with every one of its colours matched
against the palette. -/
noncomputable def matchSwatchesWithReferences (refs : List ReferenceColor)
    (maxDistance : ℝ) (swatches : List SwatchGroup) : List MatchedSwatch :=
  swatches.map (fun s =>
    { styleNumber := s.styleNumber
      styleName := s.styleName
      colors := s.colors.map (matchColor refs maxDistance)
      boundingBox := s.boundingBox })

end ColorMatcher

namespace ReferenceColorExtractor

/-- Maximum row-local red span width over the `height` rows starting at
row `y` (`width = Math.max(...)` accumulated across the box's rows). -/
def rowsMaxSpan (rows : ℕ → List Bool) (y height : ℕ) : ℕ :=
  ((List.range height).map (fun k => spanW (rows (y + k)))).foldr max 0

/-- The row-wise description of an anchor box: every constituent row
qualifies (red fraction above 10% and span at least 5 wide), the box's x
is the leftmost red pixel of its first row, and its width is the maximum
row-local span width. -/
def boxRows (m : ℕ) (rows : ℕ → List Bool) (b : RedBox) : Prop :=
  (∀ k, k < b.height →
    qualRow m (rows (b.y + k)) = true ∧ 5 ≤ spanW (rows (b.y + k))) ∧
  b.x = leftIdx (rows b.y) ∧
  b.width = rowsMaxSpan rows b.y b.height

end ReferenceColorExtractor

/-- The concrete palette used to exercise the colour matcher: a single
reference colour at RGB distance 1 from black. -/
def c1Palette : List ReferenceColor :=
  [⟨"R1", "Red", "P", ⟨1, 0, 0⟩, "#010000", ⟨0, 0, 1, 1⟩⟩]

/-- A black sampled colour box. -/
def c1Sample : ColorBox := ⟨⟨0, 0, 0⟩, "#000000", ⟨0, 0, 1, 1⟩, ⟨0, 0, 0⟩⟩

/-- A synthetic left-margin red-pixel pattern: row 0 is red on columns
10–14, rows 1–7 are red on columns 5–13 (image width 200, so the scanned
left margin is 20 columns wide). -/
def c6Img : ℕ → ℕ → Rgb := fun y x =>
  if (y = 0 ∧ 10 ≤ x ∧ x ≤ 14) ∨ (1 ≤ y ∧ y ≤ 7 ∧ 5 ≤ x ∧ x ≤ 13)
  then ⟨255, 0, 0⟩ else ⟨255, 255, 255⟩

/-! ## Helper lemmas -/

lemma isPrefOf_append_self (l r : List Char) : isPrefOf l (l ++ r) = true := by
  induction l with
  | nil => rfl
  | cons a as ih => simpa [isPrefOf] using ih

lemma hasSubstr_append_self (p r : List Char) : hasSubstr p (p ++ r) = true := by
  cases p with
  | nil =>
    cases r with
    | nil => rfl
    | cons c cs => simp [hasSubstr, isPrefOf]
  | cons a as =>
    have h := isPrefOf_append_self (a :: as) r
    simp only [List.cons_append] at h ⊢
    simp [hasSubstr, h]

lemma findClosestAux_nil (s : Rgb) (acc : Option (ReferenceColor × ℝ)) :
    ColorMatcher.findClosestAux s [] acc = acc := rfl

lemma findClosestAux_cons_none (s : Rgb) (r0 : ReferenceColor)
    (rest : List ReferenceColor) :
    ColorMatcher.findClosestAux s (r0 :: rest) none =
      ColorMatcher.findClosestAux s rest
        (some (r0, ColorMatcher.calculateColorDistance s r0.rgb)) := rfl

lemma findClosestAux_cons_some (s : Rgb) (r0 : ReferenceColor)
    (rest : List ReferenceColor) (br : ReferenceColor) (bd : ℝ) :
    ColorMatcher.findClosestAux s (r0 :: rest) (some (br, bd)) =
      if ColorMatcher.calculateColorDistance s r0.rgb < bd then
        ColorMatcher.findClosestAux s rest
          (some (r0, ColorMatcher.calculateColorDistance s r0.rgb))
      else ColorMatcher.findClosestAux s rest (some (br, bd)) := rfl

lemma findClosestAux_spec (s : Rgb) :
    ∀ (l : List ReferenceColor) (acc : Option (ReferenceColor × ℝ))
      (r : ReferenceColor) (d : ℝ),
      ColorMatcher.findClosestAux s l acc = some (r, d) →
      ((r ∈ l ∧ d = ColorMatcher.calculateColorDistance s r.rgb) ∨ acc = some (r, d)) ∧
      (∀ r' ∈ l, d ≤ ColorMatcher.calculateColorDistance s r'.rgb) ∧
      (∀ p : ReferenceColor × ℝ, acc = some p → d ≤ p.2) := by
  intro l
  induction l with
  | nil =>
    intro acc r d h
    rw [findClosestAux_nil] at h
    refine ⟨Or.inr h, by simp, fun p hp => ?_⟩
    rw [h] at hp
    obtain rfl : (r, d) = p := Option.some_injective _ hp
    exact le_refl d
  | cons r0 rest ih =>
    intro acc r d h
    cases acc with
    | none =>
      rw [findClosestAux_cons_none] at h
      obtain ⟨hmem, hmin, hacc⟩ := ih _ _ _ h
      have hd0 : d ≤ ColorMatcher.calculateColorDistance s r0.rgb :=
        hacc (r0, ColorMatcher.calculateColorDistance s r0.rgb) rfl
      refine ⟨?_, ?_, fun p hp => by cases hp⟩
      · rcases hmem with ⟨hm, hdist⟩ | heq
        · exact Or.inl ⟨List.mem_cons_of_mem _ hm, hdist⟩
        · obtain ⟨rfl, rfl⟩ : r0 = r ∧ ColorMatcher.calculateColorDistance s r0.rgb = d := by
            have := Option.some_injective _ heq
            exact ⟨congrArg Prod.fst this, congrArg Prod.snd this⟩
          exact Or.inl ⟨List.mem_cons_self _ _, rfl⟩
      · intro r' hr'
        rcases List.mem_cons.mp hr' with rfl | hr'
        · exact hd0
        · exact hmin r' hr'
    | some p =>
      obtain ⟨br, bd⟩ := p
      rw [findClosestAux_cons_some] at h
      by_cases hlt : ColorMatcher.calculateColorDistance s r0.rgb < bd
      · rw [if_pos hlt] at h
        obtain ⟨hmem, hmin, hacc⟩ := ih _ _ _ h
        have hd0 : d ≤ ColorMatcher.calculateColorDistance s r0.rgb :=
          hacc (r0, ColorMatcher.calculateColorDistance s r0.rgb) rfl
        refine ⟨?_, ?_, ?_⟩
        · rcases hmem with ⟨hm, hdist⟩ | heq
          · exact Or.inl ⟨List.mem_cons_of_mem _ hm, hdist⟩
          · obtain ⟨rfl, rfl⟩ : r0 = r ∧ ColorMatcher.calculateColorDistance s r0.rgb = d := by
              have := Option.some_injective _ heq
              exact ⟨congrArg Prod.fst this, congrArg Prod.snd this⟩
            exact Or.inl ⟨List.mem_cons_self _ _, rfl⟩
        · intro r' hr'
          rcases List.mem_cons.mp hr' with rfl | hr'
          · exact hd0
          · exact hmin r' hr'
        · intro p' hp'
          obtain rfl : (br, bd) = p' := Option.some_injective _ hp'
          exact le_of_lt (lt_of_le_of_lt hd0 hlt)
      · rw [if_neg hlt] at h
        obtain ⟨hmem, hmin, hacc⟩ := ih _ _ _ h
        have hbd : d ≤ bd := hacc (br, bd) rfl
        refine ⟨?_, ?_, ?_⟩
        · rcases hmem with ⟨hm, hdist⟩ | heq
          · exact Or.inl ⟨List.mem_cons_of_mem _ hm, hdist⟩
          · exact Or.inr heq
        · intro r' hr'
          rcases List.mem_cons.mp hr' with rfl | hr'
          · exact le_trans hbd (not_lt.mp hlt)
          · exact hmin r' hr'
        · intro p' hp'
          obtain rfl : (br, bd) = p' := Option.some_injective _ hp'
          exact hbd

lemma findClosestAux_some (s : Rgb) :
    ∀ (l : List ReferenceColor) (p0 : ReferenceColor × ℝ),
      ∃ p, ColorMatcher.findClosestAux s l (some p0) = some p := by
  intro l
  induction l with
  | nil => intro p0; exact ⟨p0, rfl⟩
  | cons r0 rest ih =>
    intro p0
    obtain ⟨br, bd⟩ := p0
    rw [findClosestAux_cons_some]
    by_cases hlt : ColorMatcher.calculateColorDistance s r0.rgb < bd
    · rw [if_pos hlt]; exact ih _
    · rw [if_neg hlt]; exact ih _

lemma findClosest_none_of_far (refs : List ReferenceColor) (maxDistance : ℝ) (s : Rgb)
    (hfar : ∀ r ∈ refs, maxDistance < ColorMatcher.calculateColorDistance s r.rgb) :
    ColorMatcher.findClosestReferenceColor refs maxDistance s = none := by
  cases refs with
  | nil => rfl
  | cons r0 rest =>
    obtain ⟨⟨rb, db⟩, heq⟩ := findClosestAux_some s rest
      (r0, ColorMatcher.calculateColorDistance s r0.rgb)
    have haux : ColorMatcher.findClosestAux s (r0 :: rest) none = some (rb, db) := by
      rw [findClosestAux_cons_none, heq]
    obtain ⟨hmem, -, -⟩ := findClosestAux_spec s (r0 :: rest) none rb db haux
    rcases hmem with ⟨hm, hdist⟩ | habs
    · unfold ColorMatcher.findClosestReferenceColor
      rw [haux]
      dsimp only
      rw [if_neg (not_le.mpr (hdist ▸ hfar rb hm))]
    · cases habs

lemma jsRound2_le_of_le (x c : ℝ) (h : x ≤ c) (hc : ⌊c * 100 + 1 / 2⌋ = ⌊(c * 100 : ℝ)⌋)
    (hint : (⌊(c * 100 : ℝ)⌋ : ℝ) = c * 100) :
    ColorMatcher.jsRound2 x ≤ c := by
  unfold ColorMatcher.jsRound2
  have h1 : (⌊x * 100 + 1 / 2⌋ : ℤ) ≤ ⌊c * 100 + 1 / 2⌋ :=
    Int.floor_le_floor (by linarith)
  rw [hc] at h1
  have h2 : ((⌊x * 100 + 1 / 2⌋ : ℤ) : ℝ) ≤ c * 100 := by
    rw [← hint]
    exact_mod_cast h1
  rw [div_le_iff₀ (by norm_num : (0 : ℝ) < 100)]
  linarith

/-! ## Claim C1 -/

lemma c1_distance_eval :
    ColorMatcher.calculateColorDistance c1Sample.rgb (⟨1, 0, 0⟩ : Rgb) = 1 := by
  unfold ColorMatcher.calculateColorDistance
  show Real.sqrt _ = 1
  rw [Real.sqrt_eq_one]
  norm_num [c1Sample]

lemma c1_closest_eval :
    ColorMatcher.findClosestReferenceColor c1Palette 150 c1Sample.rgb =
      some (⟨"R1", "Red", "P", ⟨1, 0, 0⟩, "#010000", ⟨0, 0, 1, 1⟩⟩, 1, 9933 / 100) := by
  have haux : ColorMatcher.findClosestAux c1Sample.rgb c1Palette none =
      some (⟨"R1", "Red", "P", ⟨1, 0, 0⟩, "#010000", ⟨0, 0, 1, 1⟩⟩, 1) := by
    rw [c1Palette, findClosestAux_cons_none, findClosestAux_nil, c1_distance_eval]
  unfold ColorMatcher.findClosestReferenceColor
  rw [haux]
  dsimp only
  rw [if_pos (by norm_num : (1 : ℝ) ≤ 150)]
  have hclamp : max (0 : ℝ) (min 100 (100 - 1 / 150 * 100)) = 298 / 3 := by
    have h2 : (100 : ℝ) - 1 / 150 * 100 = 298 / 3 := by norm_num
    rw [h2, min_eq_right (by norm_num), max_eq_right (by norm_num)]
  have hround : ColorMatcher.jsRound2 (298 / 3) = 9933 / 100 := by
    unfold ColorMatcher.jsRound2
    have hfl : (⌊(298 : ℝ) / 3 * 100 + 1 / 2⌋ : ℤ) = 9933 := by
      apply Int.floor_eq_iff.mpr
      constructor
      · push_cast; norm_num
      · push_cast; norm_num
    rw [hfl]
    norm_num
  rw [hclamp, hround]

/-- Claim C1, amended: whenever `findClosestReferenceColor` returns a
match for a sampled colour against the palette (with the default maximum
distance 150), the matched reference belongs to the palette, the returned
distance is its Euclidean RGB distance and is minimal over the whole
palette and at most 150; the emitted record carries that reference's
code, name and pantone label; the emitted confidence is
`clamp(100 × (1 − distance/maxDistance), 0, 100)` **rounded to the
nearest hundredth** (`Math.round(x·100)/100`), the emitted distance is
the minimum distance rounded to the nearest hundredth, and every matched
(non-sentinel) record's emitted distance is at most 150. -/
theorem c1_matched_record (refs : List ReferenceColor) (c : ColorBox)
    (r : ReferenceColor) (d conf : ℝ)
    (h : ColorMatcher.findClosestReferenceColor refs 150 c.rgb = some (r, d, conf)) :
    r ∈ refs ∧
    d = ColorMatcher.calculateColorDistance c.rgb r.rgb ∧
    (∀ r' ∈ refs, d ≤ ColorMatcher.calculateColorDistance c.rgb r'.rgb) ∧
    d ≤ 150 ∧
    conf = ColorMatcher.jsRound2 (max 0 (min 100 (100 * (1 - d / 150)))) ∧
    ColorMatcher.matchColor refs 150 c =
      { rgb := c.rgb, hex := c.hex, boundingBox := c.boundingBox,
        bottomRightPixel := c.bottomRightPixel,
        matchedReference := ⟨r.colorCode, r.colorName, r.pantoneColor,
          ColorMatcher.jsRound2 d, conf⟩ } ∧
    (ColorMatcher.matchColor refs 150 c).matchedReference.distance ≤ 150 := by
  have h0 := h
  unfold ColorMatcher.findClosestReferenceColor at h
  cases haux : ColorMatcher.findClosestAux c.rgb refs none with
  | none =>
    rw [haux] at h
    exact absurd h (by simp)
  | some p =>
    obtain ⟨rb, db⟩ := p
    rw [haux] at h
    dsimp only at h
    by_cases hle : db ≤ 150
    · rw [if_pos hle] at h
      have hinj := Option.some_injective _ h
      have hrb : rb = r := congrArg Prod.fst hinj
      have hdb : db = d := congrArg (fun q => q.2.1) hinj
      have hconf : ColorMatcher.jsRound2 (max 0 (min 100 (100 - db / 150 * 100))) = conf :=
        congrArg (fun q => q.2.2) hinj
      obtain ⟨hmem, hmin, -⟩ := findClosestAux_spec c.rgb refs none rb db haux
      rcases hmem with ⟨hm, hdist⟩ | habs
      · rw [hrb] at hm hdist
        rw [hdb] at hdist hmin hle hconf
        have hform : (100 : ℝ) - d / 150 * 100 = 100 * (1 - d / 150) := by ring
        have hmc : ColorMatcher.matchColor refs 150 c =
            { rgb := c.rgb, hex := c.hex, boundingBox := c.boundingBox,
              bottomRightPixel := c.bottomRightPixel,
              matchedReference := ⟨r.colorCode, r.colorName, r.pantoneColor,
                ColorMatcher.jsRound2 d, conf⟩ } := by
          unfold ColorMatcher.matchColor
          rw [h0]
        refine ⟨hm, hdist, hmin, hle, ?_, hmc, ?_⟩
        · rw [← hconf, hform]
        · rw [hmc]
          exact jsRound2_le_of_le d 150 hle (by norm_num) (by norm_num)
      · cases habs
    · rw [if_neg hle] at h
      exact absurd h (by simp)

/-- Claim C1, witness for the amended theorem: with the one-entry palette
at distance 1 from the black sample, the matcher returns a match and the
emitted rounded distance is within the threshold. -/
theorem c1_matched_record_witness :
    ColorMatcher.findClosestReferenceColor c1Palette 150 c1Sample.rgb =
      some (⟨"R1", "Red", "P", ⟨1, 0, 0⟩, "#010000", ⟨0, 0, 1, 1⟩⟩, 1, 9933 / 100) ∧
    (⟨"R1", "Red", "P", ⟨1, 0, 0⟩, "#010000", ⟨0, 0, 1, 1⟩⟩ : ReferenceColor) ∈ c1Palette ∧
    (ColorMatcher.matchColor c1Palette 150 c1Sample).matchedReference.distance ≤ 150 :=
  ⟨c1_closest_eval,
   (c1_matched_record c1Palette c1Sample _ 1 (9933 / 100) c1_closest_eval).1,
   (c1_matched_record c1Palette c1Sample _ 1 (9933 / 100)
     c1_closest_eval).2.2.2.2.2.2⟩

/-- Claim C1, counterexample: at minimum distance 1 the emitted
confidence is the rounded `99.33`, which differs from the claim's exact
`clamp(100 × (1 − 1/150), 0, 100) = 298/3 = 99.333…`. -/
theorem c1_counterexample :
    ColorMatcher.findClosestReferenceColor c1Palette 150 c1Sample.rgb =
      some (⟨"R1", "Red", "P", ⟨1, 0, 0⟩, "#010000", ⟨0, 0, 1, 1⟩⟩, 1, 9933 / 100) ∧
    (9933 / 100 : ℝ) ≠ max 0 (min 100 (100 * (1 - 1 / 150))) := by
  refine ⟨c1_closest_eval, ?_⟩
  have h2 : (100 : ℝ) * (1 - 1 / 150) = 298 / 3 := by norm_num
  rw [h2, min_eq_right (by norm_num), max_eq_right (by norm_num)]
  norm_num

/-! ## Claim C2 -/

/-- Claim C2, confirmed: for every sampled colour for which no reference
entry lies within `maxDistance` — vacuously including every colour when
the palette is empty — `matchSwatchesWithReferences` still emits a record
for that colour, carrying the sampled colour's own fields and the
sentinel `matchedReference` with code `"UNKNOWN"`, distance `-1` and
confidence `0`.  The embedding is a total function, mirroring that this
code path raises no exception. -/
theorem c2_unmatched_sentinel (refs : List ReferenceColor) (maxDistance : ℝ)
    (swatches : List SwatchGroup) (i j : ℕ) (s : SwatchGroup) (c : ColorBox)
    (hs : swatches[i]? = some s) (hc : s.colors[j]? = some c)
    (hfar : ∀ r ∈ refs, maxDistance < ColorMatcher.calculateColorDistance c.rgb r.rgb) :
    ∃ ms, (ColorMatcher.matchSwatchesWithReferences refs maxDistance swatches)[i]? =
        some ms ∧
      ms.styleNumber = s.styleNumber ∧ ms.styleName = s.styleName ∧
      ms.colors[j]? = some
        { rgb := c.rgb, hex := c.hex, boundingBox := c.boundingBox,
          bottomRightPixel := c.bottomRightPixel,
          matchedReference := ColorMatcher.unmatchedReference } ∧
      ColorMatcher.unmatchedReference.colorCode = "UNKNOWN" ∧
      ColorMatcher.unmatchedReference.distance = -1 ∧
      ColorMatcher.unmatchedReference.confidence = 0 := by
  have hmc : ColorMatcher.matchColor refs maxDistance c =
      { rgb := c.rgb, hex := c.hex, boundingBox := c.boundingBox,
        bottomRightPixel := c.bottomRightPixel,
        matchedReference := ColorMatcher.unmatchedReference } := by
    unfold ColorMatcher.matchColor
    rw [findClosest_none_of_far refs maxDistance c.rgb hfar]
  refine ⟨{ styleNumber := s.styleNumber, styleName := s.styleName,
            colors := s.colors.map (ColorMatcher.matchColor refs maxDistance),
            boundingBox := s.boundingBox }, ?_, rfl, rfl, ?_, rfl, rfl, rfl⟩
  · unfold ColorMatcher.matchSwatchesWithReferences
    rw [List.getElem?_map, hs]
    rfl
  · show (s.colors.map (ColorMatcher.matchColor refs maxDistance))[j]? = _
    rw [List.getElem?_map, hc, Option.map_some', hmc]

/-- Claim C2, witness: with an empty palette, the single black colour of
a one-swatch input is emitted as the sentinel record. -/
theorem c2_unmatched_sentinel_witness :
    ∃ ms, (ColorMatcher.matchSwatchesWithReferences [] 150
        [⟨"S1", "Style", [⟨⟨0, 0, 0⟩, "#000000", ⟨0, 0, 1, 1⟩, ⟨0, 0, 0⟩⟩],
          ⟨0, 0, 1, 1⟩⟩])[0]? = some ms ∧
      ms.styleNumber = "S1" ∧ ms.styleName = "Style" ∧
      ms.colors[0]? = some
        { rgb := ⟨0, 0, 0⟩, hex := "#000000", boundingBox := ⟨0, 0, 1, 1⟩,
          bottomRightPixel := ⟨0, 0, 0⟩,
          matchedReference := ColorMatcher.unmatchedReference } ∧
      ColorMatcher.unmatchedReference.colorCode = "UNKNOWN" ∧
      ColorMatcher.unmatchedReference.distance = -1 ∧
      ColorMatcher.unmatchedReference.confidence = 0 :=
  c2_unmatched_sentinel [] 150
    [⟨"S1", "Style", [⟨⟨0, 0, 0⟩, "#000000", ⟨0, 0, 1, 1⟩, ⟨0, 0, 0⟩⟩], ⟨0, 0, 1, 1⟩⟩]
    0 0 _ _ rfl rfl (by simp)

/-! ## Claim C3 -/

/-- Claim C3, amended: the swatch-extractor background predicate returns
true iff all three channels exceed 240, but the reference-extractor
variant instead returns true iff the mean brightness `(r + g + b) / 3`
exceeds 240 (equivalently, `r + g + b > 720`). -/
theorem c3_background_predicates (c : Rgb) :
    (SwatchExtractor.isWhiteOrNearWhite c = true ↔
      (240 < c.r ∧ 240 < c.g ∧ 240 < c.b)) ∧
    (ReferenceColorExtractor.isWhiteOrNearWhite c = true ↔
      (240 : ℚ) < ((c.r : ℚ) + (c.g : ℚ) + (c.b : ℚ)) / 3) ∧
    (ReferenceColorExtractor.isWhiteOrNearWhite c = true ↔ 720 < c.r + c.g + c.b) := by
  refine ⟨?_, ?_, ?_⟩
  · simp [SwatchExtractor.isWhiteOrNearWhite, and_assoc]
  · simp [ReferenceColorExtractor.isWhiteOrNearWhite]
  · simp only [ReferenceColorExtractor.isWhiteOrNearWhite, decide_eq_true_eq]
    rw [lt_div_iff₀ (by norm_num : (0 : ℚ) < 3)]
    constructor
    · intro h
      have : (720 : ℚ) < (c.r : ℚ) + (c.g : ℚ) + (c.b : ℚ) := by linarith
      exact_mod_cast this
    · intro h
      have : (720 : ℚ) < (c.r : ℚ) + (c.g : ℚ) + (c.b : ℚ) := by exact_mod_cast h
      linarith

/-- Claim C3, counterexample: the pixel `(255, 255, 213)` is classified
as background by `ReferenceColorExtractor.isWhiteOrNearWhite` (mean
brightness 241 > 240) although its blue channel does not exceed 240, so
the shared "all three channels exceed 240" description is false for that
scanner. -/
theorem c3_counterexample :
    ReferenceColorExtractor.isWhiteOrNearWhite ⟨255, 255, 213⟩ = true ∧
    ¬ (240 < (255 : ℕ) ∧ 240 < (255 : ℕ) ∧ 240 < (213 : ℕ)) := by
  constructor
  · simp only [ReferenceColorExtractor.isWhiteOrNearWhite, decide_eq_true_eq]
    norm_num
  · decide

/-! ## Claim C5 -/

/-- Claim C5, confirmed: every reference entry produced by the final
synthetic-fallback branch of `extractColorInfoEnhanced` (code from
`generateFallbackColorCode`, name `Color at <x>`) is classified as an OCR
failure by `ColorValidator.isOCRFailure`, for every region position and
every sampled colour — the generic name `"Color at " ++ x` always triggers
the generic-name test, so the fallback case is always externally
distinguishable as low confidence. -/
theorem c5_fallback_always_flagged (boundingBox : BoundingBox) (regionColor : Rgb) :
    ColorValidator.isOCRFailure
      (ReferenceColorExtractor.fallbackReferenceColor boundingBox regionColor) = true := by
  have hname :
      (ReferenceColorExtractor.fallbackReferenceColor boundingBox regionColor).colorName =
        "Color at " ++ toString boundingBox.x := rfl
  have hsub : strIncludes ("Color at " ++ toString boundingBox.x) "Color at " = true := by
    unfold strIncludes
    rw [String.data_append]
    exact hasSubstr_append_self _ _
  simp [ColorValidator.isOCRFailure, ColorValidator.hasGenericName, hname, hsub]

/-! ## Claim C10 -/

/-- Claim C10, amended: every `ColorBox` produced by
`SwatchExtractor.extractDominantColor` has a `hex` field equal to `#`
followed by the six-digit *lowercase* hexadecimal encoding of its `rgb`
field (seven characters in total) — not the uppercase encoding stated in
the spec. -/
theorem c10_hex_encodes_rgb (img : ℕ → ℕ → Rgb) (width height : ℕ)
    (bounds vbounds : ℕ × ℕ) (cb : ColorBox)
    (h : SwatchExtractor.extractDominantColor img width height bounds vbounds = some cb) :
    cb.hex = "#" ++ SwatchExtractor.hexByte cb.rgb.r ++ SwatchExtractor.hexByte cb.rgb.g ++
      SwatchExtractor.hexByte cb.rgb.b ∧
    cb.hex.length = 7 := by
  unfold SwatchExtractor.extractDominantColor at h
  by_cases hc :
      ((SwatchExtractor.samplePixels img bounds vbounds).filter
        (fun c => ! SwatchExtractor.isWhiteOrNearWhite c)).length = 0
  · simp only [hc, if_pos] at h
    exact absurd h (by simp)
  · simp only [hc, if_neg, if_false] at h
    obtain rfl := (Option.some_injective _ h.symm)
    refine ⟨rfl, ?_⟩
    have h2 : ∀ n, (SwatchExtractor.hexByte n).length = 2 := fun _ => rfl
    have h1 : ("#" : String).length = 1 := rfl
    simp [String.length_append, h2, h1]

/-- Claim C10, witness for the amended theorem: a one-pixel pure-red
region yields the average `(255, 0, 0)` with hex `#ff0000`. -/
theorem c10_hex_encodes_rgb_witness :
    SwatchExtractor.extractDominantColor (fun _ _ => ⟨255, 0, 0⟩) 1 1 (0, 1) (0, 0) =
      some ⟨⟨255, 0, 0⟩, "#ff0000", ⟨0, 0, 1, 1⟩, ⟨255, 0, 0⟩⟩ ∧
    (⟨⟨255, 0, 0⟩, "#ff0000", ⟨0, 0, 1, 1⟩, ⟨255, 0, 0⟩⟩ : ColorBox).hex =
      "#" ++ SwatchExtractor.hexByte 255 ++ SwatchExtractor.hexByte 0 ++
        SwatchExtractor.hexByte 0 := by
  refine ⟨by decide, ?_⟩
  exact (c10_hex_encodes_rgb (fun _ _ => ⟨255, 0, 0⟩) 1 1 (0, 1) (0, 0) _ (by decide)).1

lemma mem_corrections_iff (l : List ReferenceColor) (cor : ColorValidator.Correction) :
    cor ∈ (ColorValidator.validateAndCorrect l).corrections ↔
    ∃ c, l[cor.originalIndex]? = some c ∧ ColorValidator.isOCRFailure c = true ∧
      ∃ e, ColorValidator.findExpectedColorByPosition c.boundingBox.x = some e ∧
        cor.correctedColor = ColorValidator.correctedEntry c e ∧
        cor.reason = ColorValidator.correctionReason c e := by
  unfold ColorValidator.validateAndCorrect
  simp only [List.mem_filterMap, Prod.exists]
  constructor
  · rintro ⟨i, c, hmem, hf⟩
    have hget := List.mk_mem_enum_iff_getElem?.mp hmem
    by_cases hocr : ColorValidator.isOCRFailure c = true
    · rw [if_pos hocr, Option.map_eq_some'] at hf
      obtain ⟨e, he, hcor⟩ := hf
      subst hcor
      exact ⟨c, hget, hocr, e, he, rfl, rfl⟩
    · rw [if_neg hocr] at hf
      exact absurd hf (by simp)
  · rintro ⟨c, hget, hocr, e, he, hcor, hreason⟩
    refine ⟨cor.originalIndex, c, List.mk_mem_enum_iff_getElem?.mpr hget, ?_⟩
    dsimp only
    rw [if_pos hocr, he]
    simp only [Option.map_some']
    obtain ⟨i', c', r'⟩ := cor
    simp only at hcor hreason
    rw [hcor, hreason]

lemma applyCorrections_cons (l : List ReferenceColor)
    (c : ColorValidator.Correction) (cs : List ColorValidator.Correction) :
    ColorValidator.applyCorrections l (c :: cs) =
      ColorValidator.applyCorrections (l.set c.originalIndex c.correctedColor) cs := rfl

lemma applyCorrections_length (cs : List ColorValidator.Correction) :
    ∀ l : List ReferenceColor,
      (ColorValidator.applyCorrections l cs).length = l.length := by
  induction cs with
  | nil => intro l; rfl
  | cons c cs ih =>
    intro l
    rw [applyCorrections_cons, ih, List.length_set]

lemma applyCorrections_getElem?_of_notin (cs : List ColorValidator.Correction) :
    ∀ (l : List ReferenceColor) (i : ℕ),
      (∀ cor ∈ cs, cor.originalIndex ≠ i) →
      (ColorValidator.applyCorrections l cs)[i]? = l[i]? := by
  induction cs with
  | nil => intro l i _; rfl
  | cons c cs ih =>
    intro l i h
    rw [applyCorrections_cons, ih _ _ (fun cor hm => h cor (List.mem_cons_of_mem _ hm)),
      List.getElem?_set_ne (h c (List.mem_cons_self c cs))]

lemma applyCorrections_getElem?_of_mem (cs : List ColorValidator.Correction) :
    ∀ (l : List ReferenceColor) (i : ℕ) (v : ReferenceColor),
      (∀ cor ∈ cs, cor.originalIndex = i → cor.correctedColor = v) →
      (∃ cor ∈ cs, cor.originalIndex = i) →
      i < l.length →
      (ColorValidator.applyCorrections l cs)[i]? = some v := by
  induction cs with
  | nil =>
    intro l i v _ hmem _
    obtain ⟨cor, h, _⟩ := hmem
    exact absurd h (by simp)
  | cons c cs ih =>
    intro l i v hall hmem hi
    rw [applyCorrections_cons]
    by_cases hc : c.originalIndex = i
    · have hv : c.correctedColor = v := hall c (List.mem_cons_self c cs) hc
      by_cases hrest : ∃ cor ∈ cs, cor.originalIndex = i
      · exact ih _ _ _ (fun cor hm he => hall cor (List.mem_cons_of_mem _ hm) he) hrest
          (by rw [List.length_set]; exact hi)
      · push_neg at hrest
        rw [applyCorrections_getElem?_of_notin cs _ _ hrest, hc, hv]
        exact List.getElem?_set_self hi
    · have hrest : ∃ cor ∈ cs, cor.originalIndex = i := by
        obtain ⟨cor, hm, he⟩ := hmem
        rcases List.mem_cons.mp hm with rfl | hm'
        · exact absurd he hc
        · exact ⟨cor, hm', he⟩
      exact ih _ _ _ (fun cor hm he => hall cor (List.mem_cons_of_mem _ hm) he) hrest
        (by rw [List.length_set]; exact hi)

/-! ## Claim C4 -/

/-- Claim C4, amended: an entry whose code matches the synthetic fallback
pattern `C` + 4 digits and whose bounding-box x is within the 200px
tolerance of some ground-truth position is corrected to a ground-truth
entry's code and name (the first one within tolerance); and an entry whose
code does **not** match the fallback pattern and whose name is not generic
(at least 3 characters, not `"Unknown"`, not containing `"Color at "`) is
never corrected, regardless of positional proximity.  (The original
claim's second half fails because a fallback *code* alone already flags
the entry, whatever its name.) -/
theorem c4_validator_corrections (l : List ReferenceColor) :
    (∀ i c, l[i]? = some c →
      ColorValidator.isFallbackCode c.colorCode = true →
      (∃ e ∈ ColorValidator.expectedColors,
        ((c.boundingBox.x : ℤ) - e.position).natAbs ≤ 200) →
      ∃ cor ∈ (ColorValidator.validateAndCorrect l).corrections,
        cor.originalIndex = i ∧
        ∃ e ∈ ColorValidator.expectedColors,
          ((c.boundingBox.x : ℤ) - e.position).natAbs ≤ 200 ∧
          cor.correctedColor = ColorValidator.correctedEntry c e) ∧
    (∀ i c, l[i]? = some c →
      ColorValidator.isFallbackCode c.colorCode = false →
      ColorValidator.hasGenericName c.colorName = false →
      ∀ cor ∈ (ColorValidator.validateAndCorrect l).corrections,
        cor.originalIndex ≠ i) := by
  constructor
  · intro i c hget hfb hex
    have hfind : ∃ e, ColorValidator.findExpectedColorByPosition c.boundingBox.x = some e := by
      rcases hex with ⟨e0, he0mem, he0⟩
      cases hfq : ColorValidator.findExpectedColorByPosition c.boundingBox.x with
      | some e => exact ⟨e, rfl⟩
      | none =>
        have hnone := List.find?_eq_none.mp hfq e0 he0mem
        simp only [decide_eq_true_eq] at hnone
        exact absurd he0 hnone
    obtain ⟨e, he⟩ := hfind
    have hemem : e ∈ ColorValidator.expectedColors := List.mem_of_find?_eq_some he
    have hetol : ((c.boundingBox.x : ℤ) - e.position).natAbs ≤ 200 := by
      have := List.find?_some he
      simpa using this
    have hocr : ColorValidator.isOCRFailure c = true := by
      simp [ColorValidator.isOCRFailure, hfb]
    refine ⟨⟨i, ColorValidator.correctedEntry c e, ColorValidator.correctionReason c e⟩,
      ?_, rfl, e, hemem, hetol, rfl⟩
    exact (mem_corrections_iff l _).mpr ⟨c, hget, hocr, e, he, rfl, rfl⟩
  · intro i c hget hfb hgen cor hcor hidx
    obtain ⟨c', hget', hocr', -⟩ := (mem_corrections_iff l cor).mp hcor
    rw [hidx, hget] at hget'
    obtain rfl : c = c' := Option.some_injective _ hget'
    simp [ColorValidator.isOCRFailure, hfb, hgen] at hocr'

/-- Claim C4, witness for the amended theorem: a fallback-coded entry at
x = 15 is corrected to the ground-truth entry `B60002` / `New Black`, and
an entry with a genuine name and a regular code at the same position is
left alone. -/
theorem c4_validator_corrections_witness :
    (∃ cor ∈ (ColorValidator.validateAndCorrect
        [⟨"C1234", "Color at 15", "Unknown", ⟨1, 2, 3⟩, "#010203",
          ⟨15, 0, 10, 10⟩⟩]).corrections,
      cor.originalIndex = 0 ∧
      ∃ e ∈ ColorValidator.expectedColors,
        (((⟨15, 0, 10, 10⟩ : BoundingBox).x : ℤ) - e.position).natAbs ≤ 200 ∧
        cor.correctedColor = ColorValidator.correctedEntry
          ⟨"C1234", "Color at 15", "Unknown", ⟨1, 2, 3⟩, "#010203", ⟨15, 0, 10, 10⟩⟩ e) ∧
    (∀ cor ∈ (ColorValidator.validateAndCorrect
        [⟨"B30194", "Falcon Brown", "Unknown", ⟨1, 2, 3⟩, "#010203",
          ⟨15, 0, 10, 10⟩⟩]).corrections,
      cor.originalIndex ≠ 0) :=
  ⟨(c4_validator_corrections _).1 0
      ⟨"C1234", "Color at 15", "Unknown", ⟨1, 2, 3⟩, "#010203", ⟨15, 0, 10, 10⟩⟩
      (by decide) (by decide) ⟨⟨"B60002", "New Black", 15⟩, by decide, by decide⟩,
   (c4_validator_corrections _).2 0
      ⟨"B30194", "Falcon Brown", "Unknown", ⟨1, 2, 3⟩, "#010203", ⟨15, 0, 10, 10⟩⟩
      (by decide) (by decide) (by decide)⟩

/-- Claim C4, counterexample: the entry with fallback code `"C1234"` but
genuine multi-word descriptive name `"Falcon Brown"` (length ≥ 3, not a
placeholder, two words) **is** corrected by `validateAndCorrect` despite
its name, refuting "an entry with a genuine multi-word descriptive name
is never corrected". -/
theorem c4_counterexample :
    ((ColorValidator.validateAndCorrect
        [⟨"C1234", "Falcon Brown", "Unknown", ⟨1, 2, 3⟩, "#010203",
          ⟨15, 0, 10, 10⟩⟩]).corrections.map
      (fun cor => cor.originalIndex)) = [0] ∧
    ((ColorValidator.validateAndCorrect
        [⟨"C1234", "Falcon Brown", "Unknown", ⟨1, 2, 3⟩, "#010203",
          ⟨15, 0, 10, 10⟩⟩]).corrections.map
      (fun cor => cor.correctedColor.colorName)) = ["New Black"] ∧
    ColorValidator.hasGenericName "Falcon Brown" = false ∧
    3 ≤ "Falcon Brown".length ∧
    "Falcon Brown".data.count ' ' = 1 := by
  refine ⟨by decide, by decide, by decide, by decide, by decide⟩

/-! ## Claim C9 -/

/-- Claim C9, confirmed: applying the corrections produced by
`validateAndCorrect` keeps the list length, leaves every entry at a
non-corrected index exactly equal to the input entry, and at a corrected
index replaces the entry by the correction's entry, which differs from
the input entry only in `colorCode` and `colorName` — `rgb`, `hex`,
`pantoneColor` and `boundingBox` (in particular the sampled colour) are
unchanged. -/
theorem c9_apply_corrections_frame (l : List ReferenceColor) :
    (ColorValidator.applyCorrections l
      (ColorValidator.validateAndCorrect l).corrections).length = l.length ∧
    (∀ i c, l[i]? = some c →
      ((∀ cor ∈ (ColorValidator.validateAndCorrect l).corrections,
          cor.originalIndex ≠ i) →
        (ColorValidator.applyCorrections l
          (ColorValidator.validateAndCorrect l).corrections)[i]? = some c) ∧
      (∀ cor ∈ (ColorValidator.validateAndCorrect l).corrections,
        cor.originalIndex = i →
        (ColorValidator.applyCorrections l
          (ColorValidator.validateAndCorrect l).corrections)[i]? =
            some cor.correctedColor ∧
        cor.correctedColor.rgb = c.rgb ∧
        cor.correctedColor.hex = c.hex ∧
        cor.correctedColor.pantoneColor = c.pantoneColor ∧
        cor.correctedColor.boundingBox = c.boundingBox)) := by
  refine ⟨applyCorrections_length _ l, ?_⟩
  intro i c hget
  constructor
  · intro hno
    rw [applyCorrections_getElem?_of_notin _ _ _ hno]
    exact hget
  · intro cor hcor hidx
    obtain ⟨c', hget', hocr', e, he, hval, -⟩ := (mem_corrections_iff l cor).mp hcor
    rw [hidx, hget] at hget'
    obtain rfl : c = c' := Option.some_injective _ hget'
    have hi : i < l.length := (List.getElem?_eq_some.mp hget).1
    refine ⟨?_, by rw [hval]; rfl, by rw [hval]; rfl, by rw [hval]; rfl, by rw [hval]; rfl⟩
    refine applyCorrections_getElem?_of_mem _ _ _ _ ?_ ⟨cor, hcor, hidx⟩ hi
    intro cor' hcor' hidx'
    obtain ⟨c'', hget'', -, e', he', hval', -⟩ := (mem_corrections_iff l cor').mp hcor'
    rw [hidx', hget] at hget''
    obtain rfl : c = c'' := Option.some_injective _ hget''
    rw [he] at he'
    obtain rfl : e' = e := (Option.some_injective _ he').symm
    rw [hval', hval]

/-- Claim C9, witness: on a one-entry list whose entry carries the
fallback code `C1234`, the corrected output at index 0 keeps the sampled
colour. -/
theorem c9_apply_corrections_frame_witness :
    (⟨0, ColorValidator.correctedEntry
        ⟨"C1234", "Color at 15", "Unknown", ⟨1, 2, 3⟩, "#010203", ⟨15, 0, 10, 10⟩⟩
        ⟨"B60002", "New Black", 15⟩,
      ColorValidator.correctionReason
        ⟨"C1234", "Color at 15", "Unknown", ⟨1, 2, 3⟩, "#010203", ⟨15, 0, 10, 10⟩⟩
        ⟨"B60002", "New Black", 15⟩⟩ : ColorValidator.Correction) ∈
      (ColorValidator.validateAndCorrect
        [⟨"C1234", "Color at 15", "Unknown", ⟨1, 2, 3⟩, "#010203",
          ⟨15, 0, 10, 10⟩⟩]).corrections ∧
    (ColorValidator.applyCorrections
        [⟨"C1234", "Color at 15", "Unknown", ⟨1, 2, 3⟩, "#010203", ⟨15, 0, 10, 10⟩⟩]
        (ColorValidator.validateAndCorrect
          [⟨"C1234", "Color at 15", "Unknown", ⟨1, 2, 3⟩, "#010203",
            ⟨15, 0, 10, 10⟩⟩]).corrections)[0]? =
      some (ColorValidator.correctedEntry
        ⟨"C1234", "Color at 15", "Unknown", ⟨1, 2, 3⟩, "#010203", ⟨15, 0, 10, 10⟩⟩
        ⟨"B60002", "New Black", 15⟩) ∧
    (ColorValidator.correctedEntry
        ⟨"C1234", "Color at 15", "Unknown", ⟨1, 2, 3⟩, "#010203", ⟨15, 0, 10, 10⟩⟩
        ⟨"B60002", "New Black", 15⟩).rgb = (⟨1, 2, 3⟩ : Rgb) := by
  have h := ((c9_apply_corrections_frame
    [⟨"C1234", "Color at 15", "Unknown", ⟨1, 2, 3⟩, "#010203", ⟨15, 0, 10, 10⟩⟩]).2
    0 ⟨"C1234", "Color at 15", "Unknown", ⟨1, 2, 3⟩, "#010203", ⟨15, 0, 10, 10⟩⟩
    (by decide)).2
    ⟨0, ColorValidator.correctedEntry
        ⟨"C1234", "Color at 15", "Unknown", ⟨1, 2, 3⟩, "#010203", ⟨15, 0, 10, 10⟩⟩
        ⟨"B60002", "New Black", 15⟩,
      ColorValidator.correctionReason
        ⟨"C1234", "Color at 15", "Unknown", ⟨1, 2, 3⟩, "#010203", ⟨15, 0, 10, 10⟩⟩
        ⟨"B60002", "New Black", 15⟩⟩ (by decide) rfl
  exact ⟨by decide, h.1, h.2.1⟩

lemma range'_split (s m n : ℕ) (h : m ≤ n) :
    List.range' s n = List.range' s m ++ List.range' (s + m) (n - m) := by
  have happ := List.range'_append s m (n - m) 1
  rw [one_mul] at happ
  have h2 : (n - m) + m = n := by omega
  rw [h2] at happ
  exact happ.symm

lemma find?_range'_eq_some (p : ℕ → Bool) (s n y0 : ℕ) (hsy : s ≤ y0)
    (hlt : y0 < s + n)
    (hbefore : ∀ y, s ≤ y → y < y0 → p y = false) (hy0 : p y0 = true) :
    (List.range' s n).find? p = some y0 := by
  rw [range'_split s (y0 - s) n (by omega)]
  rw [List.find?_append]
  have hnone : (List.range' s (y0 - s)).find? p = none := by
    rw [List.find?_eq_none]
    intro y hy
    obtain ⟨i, hi, hyi⟩ := List.mem_range'.mp hy
    simp [hbefore y (by omega) (by omega)]
  rw [hnone]
  have he : s + (y0 - s) = y0 := by omega
  rw [he]
  have hk : 0 < n - (y0 - s) := by omega
  obtain ⟨k, hk'⟩ : ∃ k, n - (y0 - s) = k + 1 := ⟨n - (y0 - s) - 1, by omega⟩
  rw [hk', List.range'_succ, List.find?_cons_of_pos _ hy0]
  rfl

lemma findRowEndAux_nil (col : ℕ → Rgb) (rs thr cnt : ℕ) :
    SwatchExtractor.findRowEndAux col rs thr [] cnt = none := rfl

lemma findRowEndAux_cons (col : ℕ → Rgb) (rs thr y cnt : ℕ) (ys : List ℕ) :
    SwatchExtractor.findRowEndAux col rs thr (y :: ys) cnt =
      if SwatchExtractor.isWhiteOrNearWhite (col y) then
        if thr ≤ cnt + 1 then some (max (y - thr) (rs + 1))
        else SwatchExtractor.findRowEndAux col rs thr ys (cnt + 1)
      else SwatchExtractor.findRowEndAux col rs thr ys 0 := rfl

lemma findRowEndAux_whites (col : ℕ → Rgb) (rs thr : ℕ) :
    ∀ (n a cnt : ℕ) (rest : List ℕ),
      (∀ k, k < n → SwatchExtractor.isWhiteOrNearWhite (col (a + k)) = true) →
      cnt + n < thr →
      SwatchExtractor.findRowEndAux col rs thr (List.range' a n ++ rest) cnt =
        SwatchExtractor.findRowEndAux col rs thr rest (cnt + n) := by
  intro n
  induction n with
  | zero => intro a cnt rest _ _; simp
  | succ n ih =>
    intro a cnt rest hw hcnt
    rw [List.range'_succ, List.cons_append, findRowEndAux_cons]
    have hw0 : SwatchExtractor.isWhiteOrNearWhite (col a) = true := by
      have := hw 0 (by omega)
      simpa using this
    rw [if_pos hw0, if_neg (by omega : ¬ thr ≤ cnt + 1)]
    rw [ih (a + 1) (cnt + 1) rest ?_ (by omega)]
    · have : cnt + 1 + n = cnt + (n + 1) := by omega
      rw [this]
    · intro k hk
      have heq : a + 1 + k = a + (k + 1) := by omega
      rw [heq]
      exact hw (k + 1) (by omega)

lemma findRowEndAux_blacks (col : ℕ → Rgb) (rs thr : ℕ) :
    ∀ (n a cnt : ℕ) (rest : List ℕ), 0 < n →
      (∀ k, k < n → SwatchExtractor.isWhiteOrNearWhite (col (a + k)) = false) →
      SwatchExtractor.findRowEndAux col rs thr (List.range' a n ++ rest) cnt =
        SwatchExtractor.findRowEndAux col rs thr rest 0 := by
  intro n
  induction n with
  | zero => intro a cnt rest h _; omega
  | succ n ih =>
    intro a cnt rest _ hb
    rw [List.range'_succ, List.cons_append, findRowEndAux_cons]
    have hb0 : SwatchExtractor.isWhiteOrNearWhite (col a) = false := by
      have := hb 0 (by omega)
      simpa using this
    rw [if_neg (by simp [hb0])]
    by_cases hn : n = 0
    · subst hn
      simp
    · refine ih (a + 1) 0 rest (by omega) ?_
      intro k hk
      have heq : a + 1 + k = a + (k + 1) := by omega
      rw [heq]
      exact hb (k + 1) (by omega)

lemma findRowEndAux_trigger (col : ℕ → Rgb) (rs thr : ℕ) :
    ∀ (j a cnt : ℕ) (rest : List ℕ), 0 < j → cnt + j = thr →
      (∀ k, k < j → SwatchExtractor.isWhiteOrNearWhite (col (a + k)) = true) →
      SwatchExtractor.findRowEndAux col rs thr (List.range' a j ++ rest) cnt =
        some (max ((a + j - 1) - thr) (rs + 1)) := by
  intro j
  induction j with
  | zero => intro a cnt rest h _ _; omega
  | succ j ih =>
    intro a cnt rest _ hcnt hw
    rw [List.range'_succ, List.cons_append, findRowEndAux_cons]
    have hw0 : SwatchExtractor.isWhiteOrNearWhite (col a) = true := by
      have := hw 0 (by omega)
      simpa using this
    rw [if_pos hw0]
    by_cases hj : j = 0
    · subst hj
      rw [if_pos (by omega : thr ≤ cnt + 1)]
      have : a + 1 - 1 = a := by omega
      rw [this]
    · rw [if_neg (by omega : ¬ thr ≤ cnt + 1)]
      rw [ih (a + 1) (cnt + 1) rest (by omega) (by omega) ?_]
      · have : a + 1 + j - 1 = a + (j + 1) - 1 := by omega
        rw [this]
      · intro k hk
        have heq : a + 1 + k = a + (k + 1) := by omega
        rw [heq]
        exact hw (k + 1) (by omega)

lemma foldr_max_init (xs : List ℕ) (c : ℕ) : xs.foldr max c = max (xs.foldr max 0) c := by
  induction xs with
  | nil => simp
  | cons a xs ih =>
    simp only [List.foldr_cons, ih]
    omega

lemma rowsMaxSpan_one (rows : ℕ → List Bool) (y : ℕ) :
    ReferenceColorExtractor.rowsMaxSpan rows y 1 =
      ReferenceColorExtractor.spanW (rows y) := by
  unfold ReferenceColorExtractor.rowsMaxSpan
  rw [(by decide : List.range 1 = [0])]
  simp

lemma rowsMaxSpan_succ (rows : ℕ → List Bool) (y h : ℕ) :
    ReferenceColorExtractor.rowsMaxSpan rows y (h + 1) =
      max (ReferenceColorExtractor.rowsMaxSpan rows y h)
        (ReferenceColorExtractor.spanW (rows (y + h))) := by
  unfold ReferenceColorExtractor.rowsMaxSpan
  rw [List.range_succ, List.map_append, List.foldr_append]
  simp only [List.map_cons, List.map_nil, List.foldr_cons, List.foldr_nil, Nat.max_zero]
  rw [foldr_max_init]

lemma groupRedRowsAux_nil (m y : ℕ) (cur : Option RedBox) (acc : List RedBox) :
    ReferenceColorExtractor.groupRedRowsAux m [] y cur acc =
      acc ++ ReferenceColorExtractor.flushBox cur := rfl

lemma groupRedRowsAux_cons (m : ℕ) (row : List Bool) (rest : List (List Bool))
    (y : ℕ) (cur : Option RedBox) (acc : List RedBox) :
    ReferenceColorExtractor.groupRedRowsAux m (row :: rest) y cur acc =
      if ReferenceColorExtractor.qualRow m row then
        if 5 ≤ ReferenceColorExtractor.spanW row then
          match cur with
          | none => ReferenceColorExtractor.groupRedRowsAux m rest (y + 1)
              (some ⟨ReferenceColorExtractor.leftIdx row, y,
                ReferenceColorExtractor.spanW row, 1⟩) acc
          | some b => ReferenceColorExtractor.groupRedRowsAux m rest (y + 1)
              (some ⟨b.x, b.y, max b.width (ReferenceColorExtractor.spanW row),
                b.height + 1⟩) acc
        else ReferenceColorExtractor.groupRedRowsAux m rest (y + 1) none
          (acc ++ ReferenceColorExtractor.flushBox cur)
      else ReferenceColorExtractor.groupRedRowsAux m rest (y + 1) none
        (acc ++ ReferenceColorExtractor.flushBox cur) := rfl

lemma groupRedRowsAux_spec (m : ℕ) (L : List (List Bool)) :
    ∀ (rest : List (List Bool)) (y : ℕ) (cur : Option RedBox) (acc : List RedBox),
      rest = L.drop y → y ≤ L.length →
      (∀ b ∈ acc, 8 ≤ b.height ∧ b.y + b.height ≤ L.length ∧
        ReferenceColorExtractor.boxRows m (fun i => L.getD i []) b) →
      (∀ b0, cur = some b0 → b0.y + b0.height = y ∧
        ReferenceColorExtractor.boxRows m (fun i => L.getD i []) b0) →
      ∀ b ∈ ReferenceColorExtractor.groupRedRowsAux m rest y cur acc,
        8 ≤ b.height ∧ b.y + b.height ≤ L.length ∧
        ReferenceColorExtractor.boxRows m (fun i => L.getD i []) b := by
  intro rest
  induction rest with
  | nil =>
    intro y cur acc hrest hy hacc hcur b hb
    rw [groupRedRowsAux_nil] at hb
    rcases List.mem_append.mp hb with h | h
    · exact hacc b h
    · cases cur with
      | none => simp [ReferenceColorExtractor.flushBox] at h
      | some b0 =>
        obtain ⟨hsum, hinv⟩ := hcur b0 rfl
        simp only [ReferenceColorExtractor.flushBox] at h
        by_cases h8 : 8 ≤ b0.height
        · rw [if_pos h8] at h
          simp only [List.mem_singleton] at h
          subst h
          exact ⟨h8, by omega, hinv⟩
        · rw [if_neg h8] at h
          simp at h
  | cons row rest' ih =>
    intro y cur acc hrest hy hacc hcur b hb
    have hylt : y < L.length := by
      by_contra hge
      have hnil : L.drop y = [] := List.drop_eq_nil_iff.mpr (by omega)
      rw [← hrest] at hnil
      simp at hnil
    have hdrop := List.drop_eq_getElem_cons hylt
    rw [hdrop] at hrest
    have hrow : L.getD y [] = row := by
      have h1 : L[y]? = some L[y] := List.getElem?_eq_some.mpr ⟨hylt, rfl⟩
      rw [List.getD_eq_getElem?_getD, h1]
      exact (List.head_eq_of_cons_eq hrest).symm
    have hrest' : rest' = L.drop (y + 1) := List.tail_eq_of_cons_eq hrest
    have hflush : ∀ b' ∈ acc ++ ReferenceColorExtractor.flushBox cur,
        8 ≤ b'.height ∧ b'.y + b'.height ≤ L.length ∧
        ReferenceColorExtractor.boxRows m (fun i => L.getD i []) b' := by
      intro b' hb'
      rcases List.mem_append.mp hb' with h | h
      · exact hacc b' h
      · cases cur with
        | none => simp [ReferenceColorExtractor.flushBox] at h
        | some b0 =>
          obtain ⟨hsum, hinv⟩ := hcur b0 rfl
          simp only [ReferenceColorExtractor.flushBox] at h
          by_cases h8 : 8 ≤ b0.height
          · rw [if_pos h8] at h
            simp only [List.mem_singleton] at h
            subst h
            exact ⟨h8, by omega, hinv⟩
          · rw [if_neg h8] at h
            simp at h
    rw [groupRedRowsAux_cons] at hb
    by_cases hq : ReferenceColorExtractor.qualRow m row = true
    · rw [if_pos hq] at hb
      by_cases h5 : 5 ≤ ReferenceColorExtractor.spanW row
      · rw [if_pos h5] at hb
        cases cur with
        | none =>
          refine ih (y + 1) _ acc hrest' (by omega) hacc ?_ b hb
          intro b0 hb0
          obtain rfl : (⟨ReferenceColorExtractor.leftIdx row, y,
              ReferenceColorExtractor.spanW row, 1⟩ : RedBox) = b0 :=
            Option.some_injective _ hb0
          refine ⟨rfl, ?_, ?_, ?_⟩
          · intro k hk
            have hk1 : k < 1 := hk
            have hk0 : k = 0 := by omega
            subst hk0
            show ReferenceColorExtractor.qualRow m (L.getD (y + 0) []) = true ∧
              5 ≤ ReferenceColorExtractor.spanW (L.getD (y + 0) [])
            rw [Nat.add_zero, hrow]
            exact ⟨hq, h5⟩
          · show ReferenceColorExtractor.leftIdx row =
              ReferenceColorExtractor.leftIdx (L.getD y [])
            rw [hrow]
          · show ReferenceColorExtractor.spanW row =
              ReferenceColorExtractor.rowsMaxSpan (fun i => L.getD i []) y 1
            rw [rowsMaxSpan_one]
            show _ = ReferenceColorExtractor.spanW (L.getD y [])
            rw [hrow]
        | some b0 =>
          obtain ⟨hsum, hrows0, hx0, hw0⟩ := hcur b0 rfl
          refine ih (y + 1) _ acc hrest' (by omega) hacc ?_ b hb
          intro b1 hb1
          obtain rfl : (⟨b0.x, b0.y, max b0.width (ReferenceColorExtractor.spanW row),
              b0.height + 1⟩ : RedBox) = b1 := Option.some_injective _ hb1
          refine ⟨?_, ?_, ?_, ?_⟩
          · show b0.y + (b0.height + 1) = y + 1
            omega
          · intro k hk
            have hk1 : k < b0.height + 1 := hk
            by_cases hkh : k < b0.height
            · exact hrows0 k hkh
            · have hk0 : k = b0.height := by omega
              subst hk0
              show ReferenceColorExtractor.qualRow m
                  (L.getD (b0.y + b0.height) []) = true ∧
                5 ≤ ReferenceColorExtractor.spanW (L.getD (b0.y + b0.height) [])
              rw [hsum, hrow]
              exact ⟨hq, h5⟩
          · exact hx0
          · show max b0.width (ReferenceColorExtractor.spanW row) =
              ReferenceColorExtractor.rowsMaxSpan (fun i => L.getD i []) b0.y
                (b0.height + 1)
            rw [rowsMaxSpan_succ, ← hw0]
            congr 1
            show ReferenceColorExtractor.spanW row =
              ReferenceColorExtractor.spanW (L.getD (b0.y + b0.height) [])
            rw [hsum, hrow]
      · rw [if_neg h5] at hb
        exact ih (y + 1) none _ hrest' (by omega) hflush (by simp) b hb
    · rw [if_neg hq] at hb
      exact ih (y + 1) none _ hrest' (by omega) hflush (by simp) b hb

/-! ## Claim C6 -/

/-- Claim C6, amended: every anchor box returned by `findRedAnchorBoxes`
spans at least 8 contiguous image rows in which the fraction of
bright-red pixels in the left 10%-of-width margin exceeds 10% (each with
a red span at least 5 pixels wide), but the box's horizontal extent is
**not** the union of the row-local spans: its `x` is the leftmost red
pixel of the box's *first* row only, and its `width` is the *maximum* of
the row-local span widths. -/
theorem c6_anchor_boxes (img : ℕ → ℕ → Rgb) (width height : ℕ) (b : RedBox)
    (hb : b ∈ ReferenceColorExtractor.findRedAnchorBoxes img width height) :
    8 ≤ b.height ∧
    b.y + b.height ≤ height ∧
    (∀ k, k < b.height →
      ReferenceColorExtractor.qualRow (ReferenceColorExtractor.leftMarginWidth width)
        (ReferenceColorExtractor.redFlags img width (b.y + k)) = true ∧
      5 ≤ ReferenceColorExtractor.spanW
        (ReferenceColorExtractor.redFlags img width (b.y + k))) ∧
    b.x = ReferenceColorExtractor.leftIdx
      (ReferenceColorExtractor.redFlags img width b.y) ∧
    b.width = ReferenceColorExtractor.rowsMaxSpan
      (ReferenceColorExtractor.redFlags img width) b.y b.height := by
  unfold ReferenceColorExtractor.findRedAnchorBoxes at hb
  set L := (List.range height).map (ReferenceColorExtractor.redFlags img width) with hL
  have hlen : L.length = height := by simp [hL]
  have hgood := groupRedRowsAux_spec (ReferenceColorExtractor.leftMarginWidth width) L
    L 0 none [] (by simp) (by omega) (by simp) (by simp) b hb
  obtain ⟨h8, hle, hrows, hx, hw⟩ := hgood
  dsimp only at hrows hx hw
  rw [hlen] at hle
  have hrow : ∀ i, i < height → L.getD i [] =
      ReferenceColorExtractor.redFlags img width i := by
    intro i hi
    rw [List.getD_eq_getElem?_getD, hL, List.getElem?_map, List.getElem?_range hi]
    rfl
  refine ⟨h8, hle, ?_, ?_, ?_⟩
  · intro k hk
    have := hrows k hk
    rwa [hrow (b.y + k) (by omega)] at this
  · rwa [hrow b.y (by omega)] at hx
  · rw [hw]
    unfold ReferenceColorExtractor.rowsMaxSpan
    congr 1
    apply List.map_congr_left
    intro k hk
    rw [List.mem_range] at hk
    dsimp only
    rw [hrow (b.y + k) (by omega)]

/-- Claim C6, witness for the amended theorem: the box returned on
`c6Img` spans 8 qualifying rows, starts at its first row's leftmost red
pixel (column 10) and is as wide as its widest row span (9). -/
theorem c6_anchor_boxes_witness :
    (⟨10, 0, 9, 8⟩ : RedBox) ∈
      ReferenceColorExtractor.findRedAnchorBoxes c6Img 200 8 ∧
    8 ≤ (⟨10, 0, 9, 8⟩ : RedBox).height ∧
    (⟨10, 0, 9, 8⟩ : RedBox).x = ReferenceColorExtractor.leftIdx
      (ReferenceColorExtractor.redFlags c6Img 200 0) ∧
    (⟨10, 0, 9, 8⟩ : RedBox).width = ReferenceColorExtractor.rowsMaxSpan
      (ReferenceColorExtractor.redFlags c6Img 200) 0 8 :=
  have h := c6_anchor_boxes c6Img 200 8 ⟨10, 0, 9, 8⟩ (by decide)
  ⟨by decide, h.1, h.2.2.2.1, h.2.2.2.2⟩

/-- Claim C6, counterexample: on the pattern `c6Img` the single returned
box is `⟨x := 10, y := 0, width := 9, height := 8⟩`, but its constituent
row 1 has its leftmost red pixel at column 5 — the union of the
row-local spans starts at 5, outside the box's `[10, 19)` extent, so the
box's horizontal extent is not that union. -/
theorem c6_counterexample :
    ReferenceColorExtractor.findRedAnchorBoxes c6Img 200 8 = [⟨10, 0, 9, 8⟩] ∧
    ReferenceColorExtractor.leftIdx
      (ReferenceColorExtractor.redFlags c6Img 200 1) = 5 ∧
    ReferenceColorExtractor.rightIdx
      (ReferenceColorExtractor.redFlags c6Img 200 1) = 13 ∧
    (5 : ℕ) < 10 := by
  refine ⟨by decide, by decide, by decide, by decide⟩

/-! ## Claim C7 -/

/-- Claim C7, confirmed: for a scan column that is background above `y0`,
non-background from `y0` to `y1`, and background for at least `thr`
(the caller's `whiteSpaceThreshold`, 50 — any value above the 45-pixel
back-off margin) rows after `y1`, `findRowStart` started at any `s ≤ y0`
returns exactly `y0 - 45` clamped at 0 (hence `startY ≤ y0`), and
`findRowEnd` from that start returns `max y1 (startY + 1) ≥ y1`, so the
detected row `[startY, endY]` fully contains `[y0, y1]`. -/
theorem c7_row_detection (col : ℕ → Rgb) (height s y0 y1 thr : ℕ)
    (hs : s ≤ y0) (h01 : y0 ≤ y1) (hthr : 45 < thr)
    (habove : ∀ y, y < y0 → SwatchExtractor.isWhiteOrNearWhite (col y) = true)
    (hcontent : ∀ y, y ≤ y1 → y0 ≤ y →
      SwatchExtractor.isWhiteOrNearWhite (col y) = false)
    (hbelow : ∀ y, y ≤ y1 + thr → y1 < y →
      SwatchExtractor.isWhiteOrNearWhite (col y) = true)
    (hbound : y1 + thr < height - 10) :
    SwatchExtractor.findRowStart col height s = some (y0 - 45) ∧
    y0 - 45 ≤ y0 ∧
    SwatchExtractor.findRowEnd col height (y0 - 45) thr =
      some (max y1 (y0 - 45 + 1)) ∧
    y1 ≤ max y1 (y0 - 45 + 1) := by
  have hstart : SwatchExtractor.findRowStart col height s = some (y0 - 45) := by
    unfold SwatchExtractor.findRowStart
    rw [find?_range'_eq_some (fun y => ! SwatchExtractor.isWhiteOrNearWhite (col y))
      s (height - 10 - s) y0 hs (by omega) ?_ ?_]
    · rfl
    · intro y _ hy
      simp [habove y hy]
    · simp [hcontent y0 h01 (le_refl y0)]
  refine ⟨hstart, by omega, ?_, le_max_left _ _⟩
  unfold SwatchExtractor.findRowEnd
  have e0 : y0 - 45 ≤ y0 := by omega
  rw [range'_split (y0 - 45) (y0 - (y0 - 45)) (height - 10 - (y0 - 45)) (by omega)]
  have e1 : (y0 - 45) + (y0 - (y0 - 45)) = y0 := by omega
  have e2 : (height - 10 - (y0 - 45)) - (y0 - (y0 - 45)) = height - 10 - y0 := by omega
  rw [e1, e2]
  rw [range'_split y0 (y1 + 1 - y0) (height - 10 - y0) (by omega)]
  have e3 : y0 + (y1 + 1 - y0) = y1 + 1 := by omega
  have e4 : (height - 10 - y0) - (y1 + 1 - y0) = height - 10 - (y1 + 1) := by omega
  rw [e3, e4]
  rw [range'_split (y1 + 1) thr (height - 10 - (y1 + 1)) (by omega)]
  rw [findRowEndAux_whites col (y0 - 45) thr (y0 - (y0 - 45)) (y0 - 45) 0 _ ?_ (by omega)]
  · rw [findRowEndAux_blacks col (y0 - 45) thr (y1 + 1 - y0) y0 _ _ (by omega) ?_]
    · rw [findRowEndAux_trigger col (y0 - 45) thr thr (y1 + 1) 0 _ (by omega) (by omega) ?_]
      · have e5 : y1 + 1 + thr - 1 - thr = y1 := by omega
        rw [e5]
      · intro k hk
        exact hbelow (y1 + 1 + k) (by omega) (by omega)
    · intro k hk
      exact hcontent (y0 + k) (by omega) (by omega)
  · intro k hk
    exact habove ((y0 - 45) + k) (by omega)

/-- Claim C7, witness: a concrete column with content rows 3–5 inside a
height-100 image is detected as the row `[0, 5]`. -/
theorem c7_row_detection_witness :
    SwatchExtractor.findRowStart
      (fun y => if 3 ≤ y ∧ y ≤ 5 then ⟨0, 0, 0⟩ else ⟨255, 255, 255⟩) 100 0 =
      some 0 ∧
    SwatchExtractor.findRowEnd
      (fun y => if 3 ≤ y ∧ y ≤ 5 then ⟨0, 0, 0⟩ else ⟨255, 255, 255⟩) 100 0 50 =
      some 5 := by
  have h := c7_row_detection
    (fun y => if 3 ≤ y ∧ y ≤ 5 then ⟨0, 0, 0⟩ else ⟨255, 255, 255⟩)
    100 0 3 5 50 (by omega) (by omega) (by omega)
    (by decide) (by decide) (by decide) (by omega)
  refine ⟨h.1, ?_⟩
  have h3 := h.2.2.1
  norm_num at h3
  exact h3

/-! ## Claim C8 -/

open SwatchExtractor in
/-- Claim C8, amended: `parseSwatchText` fails (`none`) exactly when
there are zero non-empty trimmed lines; the style number is the first 6
characters of the first line only when that line has at least 6
characters, and `"Unknown"` otherwise; the style name is the cleaned
(pipes stripped, whitespace collapsed, trimmed) second line only when
that cleaning leaves it non-empty, with the fallback to the trimmed
remainder of the first line beyond position 6 (when longer than 2
characters) applying both when there is no second line and when the
second line cleans to the empty string; and the spec's example parses as
stated. -/
theorem c8_parse_swatch_text (text : String) :
    (swatchLines text.data = [] → parseSwatchText text = none) ∧
    (∀ l0 rest, swatchLines text.data = l0 :: rest → 6 ≤ l0.length →
      (parseSwatchText text).map TextInfo.styleNumber = some ⟨l0.take 6⟩) ∧
    (∀ l0 rest, swatchLines text.data = l0 :: rest → l0.length < 6 →
      (parseSwatchText text).map TextInfo.styleNumber = some "Unknown") ∧
    (∀ l0 l1 rest, swatchLines text.data = l0 :: l1 :: rest →
      cleanStyleName l1 ≠ [] →
      (parseSwatchText text).map TextInfo.styleName = some ⟨cleanStyleName l1⟩) ∧
    (∀ l0, swatchLines text.data = [l0] →
      2 < (trimChars (l0.drop 6)).length →
      (parseSwatchText text).map TextInfo.styleName = some ⟨trimChars (l0.drop 6)⟩) ∧
    (∀ l0 l1 rest, swatchLines text.data = l0 :: l1 :: rest →
      cleanStyleName l1 = [] → 2 < (trimChars (l0.drop 6)).length →
      (parseSwatchText text).map TextInfo.styleName = some ⟨trimChars (l0.drop 6)⟩) ∧
    parseSwatchText "123456 SAMPLE\nMy Style Name" =
      some ⟨"123456", "My Style Name"⟩ := by
  refine ⟨?_, ?_, ?_, ?_, ?_, ?_, by decide⟩
  · intro h
    unfold parseSwatchText
    rw [h]
  · intro l0 rest h h6
    have htake : l0.take 6 ≠ [] := by
      intro he
      have hlen := congrArg List.length he
      rw [List.length_take] at hlen
      simp only [List.length_nil] at hlen
      omega
    unfold parseSwatchText
    rw [h]
    dsimp only
    rw [if_pos h6, if_neg htake]
    simp
  · intro l0 rest h h6
    unfold parseSwatchText
    rw [h]
    dsimp only
    rw [if_neg (by omega : ¬ 6 ≤ l0.length), if_pos rfl]
    simp
  · intro l0 l1 rest h hclean
    unfold parseSwatchText
    rw [h]
    dsimp only
    rw [if_neg hclean, if_neg hclean]
    simp
  · intro l0 h h2
    have hne : trimChars (l0.drop 6) ≠ [] := by
      intro he
      rw [he] at h2
      simp at h2
    unfold parseSwatchText
    rw [h]
    dsimp only
    rw [if_pos rfl, if_pos h2, if_neg hne]
    simp
  · intro l0 l1 rest h hclean h2
    have hne : trimChars (l0.drop 6) ≠ [] := by
      intro he
      rw [he] at h2
      simp at h2
    unfold parseSwatchText
    rw [h]
    dsimp only
    rw [if_pos hclean, if_pos h2, if_neg hne]
    simp

/-- Claim C8, witness for the amended theorem: the spec's example input
splits into the two expected lines and yields the verbatim first 6
characters as the style number. -/
theorem c8_parse_swatch_text_witness :
    SwatchExtractor.swatchLines ("123456 SAMPLE\nMy Style Name").data =
      ["123456 SAMPLE".data, "My Style Name".data] ∧
    (SwatchExtractor.parseSwatchText "123456 SAMPLE\nMy Style Name").map
      SwatchExtractor.TextInfo.styleNumber = some ⟨"123456 SAMPLE".data.take 6⟩ :=
  ⟨by decide,
   (c8_parse_swatch_text "123456 SAMPLE\nMy Style Name").2.1
     ("123456 SAMPLE".data) ["My Style Name".data] (by decide) (by decide)⟩

/-- Claim C8, counterexample: (1) on `"abcdefgh\n|"` the second non-empty
line `"|"` cleans to the empty string, so the code emits
`styleName = "Unknown"` where the claim's rule (pipe-stripped second
line) demands `""`; (2) on the five-character single line `"12345"` the
code emits `styleNumber = "Unknown"`, not the verbatim leading characters
of the first line. -/
theorem c8_counterexample :
    SwatchExtractor.parseSwatchText "abcdefgh\n|" = some ⟨"abcdef", "Unknown"⟩ ∧
    SwatchExtractor.cleanStyleName "|".data = [] ∧
    ("Unknown" : String) ≠ "" ∧
    SwatchExtractor.parseSwatchText "12345" = some ⟨"Unknown", "Unknown"⟩ ∧
    ("Unknown" : String) ≠ "12345" := by
  refine ⟨by decide, by decide, by decide, by decide, by decide⟩

/-- Claim C10, counterexample: the produced hex string `#ff0000` differs
from the canonical uppercase encoding `#FF0000` claimed by the spec
(`ReferenceColorExtractor.rgbToHex` is the spec's uppercase encoding). -/
theorem c10_counterexample :
    SwatchExtractor.extractDominantColor (fun _ _ => ⟨255, 0, 0⟩) 1 1 (0, 1) (0, 0) =
      some ⟨⟨255, 0, 0⟩, "#ff0000", ⟨0, 0, 1, 1⟩, ⟨255, 0, 0⟩⟩ ∧
    ReferenceColorExtractor.rgbToHex ⟨255, 0, 0⟩ = "#FF0000" ∧
    ("#ff0000" : String) ≠ "#FF0000" := by
  refine ⟨by decide, by decide, by decide⟩
